import Mathlib

/-
Verification of the go-nodered-wrapper library against its design
specification.  The Go sources are shallowly embedded: JSON-able values
become the inductive `Value`; Go string-keyed maps (`map[string]interface
...`) become association lists with overwrite-on-set semantics, which is
observationally the map semantics as long as keys are distinct (Go maps
cannot hold duplicate keys); HTTP exchanges become a pure oracle
`Request -> HttpResult` supplied by the environment, and every client
operation returns the ordered trace of requests it issued together with
its result; Go `error` values are the formatted strings `fmt.Errorf`
produces (`%w`/`%v` verbs render the wrapped error's string).  float64
node coordinates are only ever copied, never computed with, so they are
carried as `Int`; `time.Time`/`time.Duration` fields likewise become
opaque integers.  JSON encoding/decoding by `encoding/json` is modelled
as abstract (de)coder functions where a claim needs them.
-/

/-- A JSON-able value as used by the wrapper: the cases that occur in
node property maps, execution inputs/outputs and wire-format objects. -/
inductive Value where
  | vStr : String → Value
  | vInt : Int → Value
  | vBool : Bool → Value
  | vWires : List (List String) → Value
deriving DecidableEq, Repr

/-- A wire-format JSON object (Go `map[string]interface` value), kept as
an association list built by `Obj.set`, which overwrites like Go map
assignment does. -/
abbrev Obj := List (String × Value)

/-- Go map assignment `m[k] = v`: overwrite the binding if the key is
present, extend the map otherwise. -/
def Obj.set : Obj → String → Value → Obj
  | [], k, v => [(k, v)]
  | (k', v') :: rest, k, v =>
      if k' = k then (k, v) :: rest else (k', v') :: Obj.set rest k v

/-- Go map read `m[k]`: the value bound to `k`, if any. -/
def Obj.lookup : Obj → String → Option Value
  | [], _ => none
  | (k', v') :: rest, k => if k' = k then some v' else Obj.lookup rest k

/-- Folding a list of key/value pairs into an object with `Obj.set`:
the embedding of Go's `for key, value := range m { obj[key] = value }`.
(For the duplicate-free key lists that model Go maps the resulting
lookup function does not depend on the iteration order.) -/
def Obj.setAll (o : Obj) (props : List (String × Value)) : Obj :=
  props.foldl (fun acc kv => acc.set kv.1 kv.2) o

/-- The last binding of `k` in a key/value list, if any (later entries
win, matching repeated Go map assignment). -/
def propLookup : List (String × Value) → String → Option Value
  | [], _ => none
  | kv :: rest, k =>
      match propLookup rest k with
      | some v => some v
      | none => if kv.1 = k then some kv.2 else none

/-- Node position in the flow editor (Go struct `Position`; the float64
coordinates are only copied by the code modelled here, so they are
carried as integers). -/
structure Position where
  X : Int
  Y : Int
deriving DecidableEq, Repr

/-- A Node-RED node (Go struct `Node` in pkg/types; the Go field `Type`
is called `NodeType` here because `Type` is reserved in Lean). -/
structure Node where
  ID : String
  NodeType : String
  Name : String
  Position : Position
  Properties : List (String × Value)
  Wires : List (List String)
deriving DecidableEq, Repr

/-- A connection between nodes (Go struct `Connection` in pkg/types). -/
structure Connection where
  Source : String
  Target : String
  SourcePort : Int
  TargetPort : Int
deriving DecidableEq, Repr

/-- A Node-RED flow (Go struct `FlowDefinition` in pkg/types;
`time.Time` stamps carried as integers). -/
structure FlowDefinition where
  ID : String
  Name : String
  Label : String
  Version : String
  Description : String
  Info : String
  Disabled : Bool
  Nodes : List Node
  Connections : List Connection
  Metadata : List (String × Value)
  CreatedAt : Int
  UpdatedAt : Int
deriving DecidableEq, Repr

/-- The zero value of `FlowDefinition` (Go's `&types.FlowDefinition\x7b\x7d`). -/
def zeroFlowDefinition : FlowDefinition :=
  { ID := "", Name := "", Label := "", Version := "", Description := "",
    Info := "", Disabled := false, Nodes := [], Connections := [],
    Metadata := [], CreatedAt := 0, UpdatedAt := 0 }

/-- A log entry from flow execution (Go struct `LogEntry`). -/
structure LogEntry where
  Level : String
  Message : String
  Time : Int
  NodeID : String
deriving DecidableEq, Repr

/-- The result of a flow execution (Go struct `ExecutionResult`). -/
structure ExecutionResult where
  ExecutionID : String
  Success : Bool
  Output : List (String × Value)
  Error : String
  Duration : Int
  Logs : List LogEntry
deriving DecidableEq, Repr

namespace NodeRedClient

/-- The `tab` (flow container) object that `convertFlowToNodeRedFormat`
emits first: id, type "tab", label, and `info` only for a non-empty
description. -/
def tabObj (flow : FlowDefinition) : Obj :=
  let t : Obj :=
    [("id", .vStr flow.ID), ("type", .vStr "tab"), ("label", .vStr flow.Name)]
  if flow.Description = "" then t else t.set "info" (.vStr flow.Description)

/-- The reserved keys that `convertFlowToNodeRedFormat` writes before
flattening a node's property map into the object. -/
def nodeBase (flowID : String) (node : Node) : Obj :=
  [("id", .vStr node.ID), ("type", .vStr node.NodeType),
   ("name", .vStr node.Name), ("x", .vInt node.Position.X),
   ("y", .vInt node.Position.Y), ("z", .vStr flowID),
   ("wires", .vWires node.Wires)]

/-- The wire-format object for one node: the reserved keys, then every
entry of the node's property map assigned on top (`for key, value :=
range node.Properties`). -/
def nodeToObj (flowID : String) (node : Node) : Obj :=
  (nodeBase flowID node).setAll node.Properties

/-- Go `convertFlowToNodeRedFormat`: the tab object followed by one
object per node, in order. -/
def convertFlowToNodeRedFormat (flow : FlowDefinition) : List Obj :=
  tabObj flow :: flow.Nodes.map (nodeToObj flow.ID)

/-- The payload marshalled by `DeployFlow`: flow id, label, the node
objects after the tab node (`nodeRedNodes[1:]`), and `info` only for a
non-empty description.  `encoding/json` is deterministic on this data
(map keys are sorted), so equal payload values marshal to equal bytes
and this value stands for the marshalled request body. -/
structure DeployPayload where
  id : String
  label : String
  nodes : List Obj
  info : Option String
deriving DecidableEq, Repr

/-- A marshalled request body. -/
inductive Body where
  | flowPayload : DeployPayload → Body
  | jsonInput : List (String × Value) → Body
deriving DecidableEq, Repr

/-- An outgoing HTTP request: method, URL, headers in the order the code
sets them, and the marshalled body if any. -/
structure Request where
  method : String
  url : String
  headers : List (String × String)
  body : Option Body
deriving DecidableEq, Repr

/-- An HTTP response: status code and raw body text. -/
structure HttpResponse where
  status : Nat
  body : String
deriving DecidableEq, Repr

/-- What `httpClient.Do` yields: a response, or a transport error with
its message. -/
inductive HttpResult where
  | ok : HttpResponse → HttpResult
  | netErr : String → HttpResult
deriving DecidableEq, Repr

/-- The client state (Go struct `NodeRedClient`; the `http.Client`
handle and its timeout live in the transport oracle, outside the
model). -/
structure Client where
  baseURL : String
  apiKey : String
  debug : Bool
deriving DecidableEq, Repr

/-- The `Authorization` header the code sets exactly when the API key is
non-empty (`if c.apiKey != "" ...`). -/
def authHeaders (apiKey : String) : List (String × String) :=
  if apiKey = "" then [] else [("Authorization", "Bearer " ++ apiKey)]

/-- Headers for requests with a JSON body: `Content-Type` first, then
the conditional `Authorization` header. -/
def jsonHeaders (apiKey : String) : List (String × String) :=
  ("Content-Type", "application/json") :: authHeaders apiKey

/-- Marshal a flow into the deploy payload (`DeployFlow` lines building
`payload` from `nodeRedNodes`). -/
def mkDeployPayload (flow : FlowDefinition) : DeployPayload :=
  { id := flow.ID, label := flow.Name,
    nodes := (convertFlowToNodeRedFormat flow).drop 1,
    info := if flow.Description = "" then none else some flow.Description }

/-- The update request `PUT <base>/flow/<id>` issued first by
`DeployFlow`. -/
def deployPutRequest (c : Client) (flow : FlowDefinition) : Request :=
  { method := "PUT", url := c.baseURL ++ "/flow/" ++ flow.ID,
    headers := jsonHeaders c.apiKey,
    body := some (.flowPayload (mkDeployPayload flow)) }

/-- The create request `POST <base>/flow` that `createFlow` builds from
the marshalled body handed down by `DeployFlow`. -/
def createRequest (c : Client) (body : Body) : Request :=
  { method := "POST", url := c.baseURL ++ "/flow",
    headers := jsonHeaders c.apiKey, body := some body }

/-- The create request issued on the `DeployFlow` fallback path. -/
def deployPostRequest (c : Client) (flow : FlowDefinition) : Request :=
  createRequest c (.flowPayload (mkDeployPayload flow))

/-- Go `createFlow`: POST the same marshalled body to the collection
endpoint; 200 is success, anything else a status error.  (The `flow`
argument of the Go function is used only for debug logging and is
dropped here.)  Returns the issued requests and the outcome. -/
def createFlow (c : Client) (net : Request → HttpResult) (body : Body) :
    List Request × Except String Unit :=
  let req := createRequest c body
  match net req with
  | .netErr e => ([req], .error ("failed to create flow: " ++ e))
  | .ok resp =>
      if resp.status = 200 then ([req], .ok ())
      else ([req], .error ("failed to create flow: status " ++
        toString resp.status ++ ", body: " ++ resp.body))

/-- Go `DeployFlow`: PUT the wire-format payload to the per-flow
endpoint; on 404 fall back to `createFlow` with the same body; 200 is
success, anything else a status error. -/
def DeployFlow (c : Client) (net : Request → HttpResult)
    (flow : FlowDefinition) : List Request × Except String Unit :=
  let req := deployPutRequest c flow
  match net req with
  | .netErr e => ([req], .error ("failed to deploy flow: " ++ e))
  | .ok resp =>
      if resp.status = 404 then
        let rest := createFlow c net (.flowPayload (mkDeployPayload flow))
        (req :: rest.1, rest.2)
      else if resp.status = 200 then ([req], .ok ())
      else ([req], .error ("failed to deploy flow: status " ++
        toString resp.status ++ ", body: " ++ resp.body))

/-- The execution request `POST <base>/flows/<id>/execute`. -/
def executeRequest (c : Client) (flowID : String)
    (input : List (String × Value)) : Request :=
  { method := "POST", url := c.baseURL ++ "/flows/" ++ flowID ++ "/execute",
    headers := jsonHeaders c.apiKey, body := some (.jsonInput input) }

/-- Go client `ExecuteFlow`: POST the input, then decode the response
body into an `ExecutionResult` without ever reading the status code.
`decodeExec` stands for `json.NewDecoder(resp.Body).Decode`; the json
error detail is elided from the wrapped decode-error message. -/
def ExecuteFlow (c : Client) (net : Request → HttpResult)
    (decodeExec : String → Option ExecutionResult) (flowID : String)
    (input : List (String × Value)) :
    List Request × Except String ExecutionResult :=
  let req := executeRequest c flowID input
  match net req with
  | .netErr e => ([req], .error ("failed to execute flow: " ++ e))
  | .ok resp =>
      match decodeExec resp.body with
      | none => ([req], .error "failed to decode response")
      | some result => ([req], .ok result)

/-- The retrieval request `GET <base>/flows/<id>` (no body, so only the
conditional `Authorization` header). -/
def getRequest (c : Client) (flowID : String) : Request :=
  { method := "GET", url := c.baseURL ++ "/flows/" ++ flowID,
    headers := authHeaders c.apiKey, body := none }

/-- Go client `GetFlow`: GET the flow; 404 is the dedicated not-found
error naming the flow id, any other non-200 a generic status error, and
200 decodes the body into a `FlowDefinition`. -/
def GetFlow (c : Client) (net : Request → HttpResult)
    (decodeFlow : String → Option FlowDefinition) (flowID : String) :
    List Request × Except String FlowDefinition :=
  let req := getRequest c flowID
  match net req with
  | .netErr e => ([req], .error ("failed to get flow: " ++ e))
  | .ok resp =>
      if resp.status = 404 then
        ([req], .error ("flow not found: " ++ flowID))
      else if resp.status ≠ 200 then
        ([req], .error ("failed to get flow: status " ++ toString resp.status))
      else
        match decodeFlow resp.body with
        | none => ([req], .error "failed to decode flow")
        | some flow => ([req], .ok flow)

/-- The deletion request `DELETE <base>/flows/<id>`. -/
def deleteRequest (c : Client) (flowID : String) : Request :=
  { method := "DELETE", url := c.baseURL ++ "/flows/" ++ flowID,
    headers := authHeaders c.apiKey, body := none }

/-- Go client `DeleteFlow`: DELETE the flow; same 404-versus-generic
split as `GetFlow`. -/
def DeleteFlow (c : Client) (net : Request → HttpResult) (flowID : String) :
    List Request × Except String Unit :=
  let req := deleteRequest c flowID
  match net req with
  | .netErr e => ([req], .error ("failed to delete flow: " ++ e))
  | .ok resp =>
      if resp.status = 404 then
        ([req], .error ("flow not found: " ++ flowID))
      else if resp.status ≠ 200 then
        ([req], .error ("failed to delete flow: status " ++
          toString resp.status))
      else ([req], .ok ())

/-- The health request `GET <base>/health`: the code sets no headers at
all on it. -/
def healthRequest (c : Client) : Request :=
  { method := "GET", url := c.baseURL ++ "/health",
    headers := [], body := none }

/-- Go `HealthCheck`: GET the health endpoint; any non-200 is an
error.  No body is inspected. -/
def HealthCheck (c : Client) (net : Request → HttpResult) :
    List Request × Except String Unit :=
  let req := healthRequest c
  match net req with
  | .netErr e => ([req], .error ("failed to check health: " ++ e))
  | .ok resp =>
      if resp.status ≠ 200 then
        ([req], .error ("Node-RED is not healthy: status " ++
          toString resp.status))
      else ([req], .ok ())

end NodeRedClient

namespace NodeRedWrapper

/-- A pluggable execution handler (Go interface `ExecutionHandler`).
Each hook either fails with an error message or succeeds (`none`); the
`ctx` argument of the Go methods is opaque to the model. -/
structure ExecutionHandler where
  PreExecute : List (String × Value) → Option String
  PostExecute : ExecutionResult → Option String
  OnError : String → Option String

/-- The default executor: every hook is an unconditional no-op. -/
def DefaultExecutor : ExecutionHandler :=
  { PreExecute := fun _ => none, PostExecute := fun _ => none,
    OnError := fun _ => none }

/-- One observable step of the facade's `ExecuteFlow`, recorded in
order: which hook or client call ran, with its argument. -/
inductive ExecEvent where
  | preExec : List (String × Value) → ExecEvent
  | clientExec : String → List (String × Value) → ExecEvent
  | onError : String → ExecEvent
  | postExec : ExecutionResult → ExecEvent
deriving DecidableEq, Repr

/-- Facade `DeployFlow` (wrapper.go): validate that the flow is present
and has a non-empty ID, then delegate to the transport client, here the
abstract `clientDeploy`.  The first component counts transport-client
invocations; a nil Go pointer is `none`. -/
def DeployFlow (clientDeploy : FlowDefinition → Except String Unit)
    (flow : Option FlowDefinition) : Nat × Except String Unit :=
  match flow with
  | none => (0, .error "flow is required")
  | some f =>
      if f.ID = "" then (0, .error "flow ID is required")
      else (1, clientDeploy f)

/-- Facade `ExecuteFlow` (wrapper.go): validate the flow id, run the
pre-hook, call the transport client, on failure run the error hook, on
success set the measured duration (`elapsed`, the wall clock being
outside the model) and run the post-hook.  Returns the ordered trace of
hook/client events alongside the result. -/
def ExecuteFlow (executor : ExecutionHandler)
    (clientExecute : String → List (String × Value) →
      Except String ExecutionResult)
    (elapsed : Int) (flowID : String) (input : List (String × Value)) :
    List ExecEvent × Except String ExecutionResult :=
  if flowID = "" then ([], .error "flow ID is required")
  else
    match executor.PreExecute input with
    | some e => ([.preExec input], .error ("pre-execution failed: " ++ e))
    | none =>
        match clientExecute flowID input with
        | .error err =>
            match executor.OnError err with
            | some execErr =>
                ([.preExec input, .clientExec flowID input, .onError err],
                 .error ("execution failed and error handler failed: " ++
                   execErr ++ " (original error: " ++ err ++ ")"))
            | none =>
                ([.preExec input, .clientExec flowID input, .onError err],
                 .error err)
        | .ok result =>
            let result := { result with Duration := elapsed }
            match executor.PostExecute result with
            | some e =>
                ([.preExec input, .clientExec flowID input, .postExec result],
                 .error ("post-execution failed: " ++ e))
            | none =>
                ([.preExec input, .clientExec flowID input, .postExec result],
                 .ok result)

/-- Facade `GetFlow` (wrapper.go): validate the flow id, then delegate. -/
def GetFlow (clientGet : String → Except String FlowDefinition)
    (flowID : String) : Nat × Except String FlowDefinition :=
  if flowID = "" then (0, .error "flow ID is required")
  else (1, clientGet flowID)

/-- Facade `DeleteFlow` (wrapper.go): validate the flow id, then
delegate. -/
def DeleteFlow (clientDelete : String → Except String Unit)
    (flowID : String) : Nat × Except String Unit :=
  if flowID = "" then (0, .error "flow ID is required")
  else (1, clientDelete flowID)

/-- A workflow value handed to a converter: Go's `interface` argument.
Inputs that are neither a `*types.FlowDefinition` nor a
`map[string]interface` value are collapsed to their Go type name, which
is all `%T` formatting observes of them. -/
inductive Workflow where
  | flowDef : FlowDefinition → Workflow
  | strMap : List (String × Value) → Workflow
  | other : String → Workflow
deriving DecidableEq, Repr

/-- The type-checked string extraction `m[key].(string)`: the bound
string, or the zero value when the key is absent or not a string. -/
def getStrField (m : List (String × Value)) (key : String) : String :=
  match Obj.lookup m key with
  | some (.vStr s) => s
  | _ => ""

/-- Go `DefaultConverter.ConvertToNodeRedFlow`: pass a `FlowDefinition`
through unchanged; build one from the recognized keys of a string map,
leaving every other field zero; reject any other type, naming it. -/
def ConvertToNodeRedFlow : Workflow → Except String FlowDefinition
  | .flowDef f => .ok f
  | .strMap m =>
      .ok { zeroFlowDefinition with
              ID := getStrField m "id", Name := getStrField m "name",
              Description := getStrField m "description",
              Version := getStrField m "version" }
  | .other typeName =>
      .error ("unsupported workflow type: " ++ typeName)

end NodeRedWrapper

theorem Obj.lookup_set (o : Obj) (k : String) (v : Value) (k2 : String) :
    (o.set k v).lookup k2 = if k2 = k then some v else o.lookup k2 := by
  induction o with
  | nil =>
      by_cases h : k2 = k
      · subst h; simp [Obj.set, Obj.lookup]
      · simp [Obj.set, Obj.lookup, h, Ne.symm h]
  | cons hd tl ih =>
      obtain ⟨k1, v1⟩ := hd
      by_cases hk : k1 = k <;> by_cases h2 : k2 = k <;>
        simp_all [Obj.set, Obj.lookup]
      simp [Ne.symm h2]

theorem Obj.lookup_setAll (props : List (String × Value)) (o : Obj)
    (k : String) :
    (o.setAll props).lookup k =
      match propLookup props k with
      | some v => some v
      | none => o.lookup k := by
  induction props generalizing o with
  | nil => simp [Obj.setAll, propLookup]
  | cons kv rest ih =>
      show ((o.set kv.1 kv.2).setAll rest).lookup k = _
      rw [ih]
      cases h : propLookup rest k with
      | some v => simp [propLookup, h]
      | none =>
          simp only [propLookup, h]
          rw [Obj.lookup_set]
          by_cases hk : kv.1 = k
          · simp [hk]
          · have hk2 : ¬ k = kv.1 := fun hh => hk hh.symm
            rw [if_neg hk2, if_neg hk]

theorem propLookup_eq_none {props : List (String × Value)} {k : String}
    (h : k ∉ props.map Prod.fst) : propLookup props k = none := by
  induction props with
  | nil => rfl
  | cons kv rest ih =>
      simp only [List.map_cons, List.mem_cons] at h
      push_neg at h
      simp only [propLookup, ih h.2]
      rw [if_neg (fun hh => h.1 hh.symm)]

theorem propLookup_eq_some {props : List (String × Value)} {k : String}
    {v : Value} (hnd : (props.map Prod.fst).Nodup)
    (hmem : (k, v) ∈ props) : propLookup props k = some v := by
  induction props with
  | nil => cases hmem
  | cons kv rest ih =>
      simp only [List.map_cons, List.nodup_cons] at hnd
      rcases List.mem_cons.mp hmem with h | h
      · have hnone : propLookup rest k = none := by
          apply propLookup_eq_none
          rw [← h] at hnd
          exact hnd.1
        simp [propLookup, hnone, ← h]
      · simp [propLookup, ih hnd.2 h]

theorem NodeRedClient.nodeToObj_lookup (flowID : String) (n : Node)
    (k : String) :
    (NodeRedClient.nodeToObj flowID n).lookup k =
      match propLookup n.Properties k with
      | some v => some v
      | none => (NodeRedClient.nodeBase flowID n).lookup k :=
  Obj.lookup_setAll n.Properties (NodeRedClient.nodeBase flowID n) k

theorem getD_map_of_lt {α β : Type} (f : α → β) (l : List α) (i : Nat)
    (h : i < l.length) (d : β) :
    (l.map f).getD i d = f (l.get ⟨i, h⟩) := by
  induction l generalizing i with
  | nil => cases h
  | cons a tl ih =>
      cases i with
      | zero => rfl
      | succ m => simpa using ih m (by simpa using h)

theorem convert_getD_succ (flow : FlowDefinition)
    (i : Fin flow.Nodes.length) :
    (NodeRedClient.convertFlowToNodeRedFormat flow).getD (i.1 + 1) [] =
      NodeRedClient.nodeToObj flow.ID (flow.Nodes.get i) := by
  simp only [NodeRedClient.convertFlowToNodeRedFormat, List.getD_cons_succ]
  exact getD_map_of_lt _ _ i.1 i.2 []

/-- What the spec asserts of element 0 of the wire format: a tab object
carrying the flow's identifier, name, and description when non-empty. -/
abbrev tabCarries (flow : FlowDefinition) : Prop :=
  ((NodeRedClient.convertFlowToNodeRedFormat flow).getD 0 []).lookup "id" =
      some (.vStr flow.ID) ∧
  ((NodeRedClient.convertFlowToNodeRedFormat flow).getD 0 []).lookup "type" =
      some (.vStr "tab") ∧
  ((NodeRedClient.convertFlowToNodeRedFormat flow).getD 0 []).lookup "label" =
      some (.vStr flow.Name) ∧
  (flow.Description ≠ "" →
    ((NodeRedClient.convertFlowToNodeRedFormat flow).getD 0 []).lookup "info" =
      some (.vStr flow.Description))

theorem tabCarries_holds (flow : FlowDefinition) : tabCarries flow := by
  by_cases hd : flow.Description = ""
  · refine ⟨?_, ?_, ?_, fun h => absurd hd h⟩ <;>
      · show (NodeRedClient.tabObj flow).lookup _ = _
        rw [NodeRedClient.tabObj, if_pos hd]
        rfl
  · refine ⟨?_, ?_, ?_, fun _ => ?_⟩ <;>
      · show (NodeRedClient.tabObj flow).lookup _ = _
        rw [NodeRedClient.tabObj, if_neg hd]
        rfl

/-- What claim C1 asserts of the object for one node, literally: the
reserved keys carry the node's own data, and every property key carries
its property value. -/
abbrev c1NodeClaim (flowID : String) (o : Obj) (n : Node) : Prop :=
  o.lookup "id" = some (.vStr n.ID) ∧
  o.lookup "type" = some (.vStr n.NodeType) ∧
  o.lookup "name" = some (.vStr n.Name) ∧
  o.lookup "x" = some (.vInt n.Position.X) ∧
  o.lookup "y" = some (.vInt n.Position.Y) ∧
  o.lookup "z" = some (.vStr flowID) ∧
  o.lookup "wires" = some (.vWires n.Wires) ∧
  ∀ kv ∈ n.Properties, o.lookup kv.1 = some kv.2

/-- Claim C1 as stated, for one flow. -/
abbrev c1Claim (flow : FlowDefinition) : Prop :=
  (NodeRedClient.convertFlowToNodeRedFormat flow).length =
      flow.Nodes.length + 1 ∧
  tabCarries flow ∧
  ∀ i : Fin flow.Nodes.length,
    c1NodeClaim flow.ID
      ((NodeRedClient.convertFlowToNodeRedFormat flow).getD (i.1 + 1) [])
      (flow.Nodes.get i)

/-- The corrected per-node statement: a reserved key carries the node's
own data only when the node's property map does not rebind it, and every
property key carries its property value. -/
abbrev nodeAmended (flowID : String) (o : Obj) (n : Node) : Prop :=
  ("id" ∉ n.Properties.map Prod.fst →
    o.lookup "id" = some (.vStr n.ID)) ∧
  ("type" ∉ n.Properties.map Prod.fst →
    o.lookup "type" = some (.vStr n.NodeType)) ∧
  ("name" ∉ n.Properties.map Prod.fst →
    o.lookup "name" = some (.vStr n.Name)) ∧
  ("x" ∉ n.Properties.map Prod.fst →
    o.lookup "x" = some (.vInt n.Position.X)) ∧
  ("y" ∉ n.Properties.map Prod.fst →
    o.lookup "y" = some (.vInt n.Position.Y)) ∧
  ("z" ∉ n.Properties.map Prod.fst →
    o.lookup "z" = some (.vStr flowID)) ∧
  ("wires" ∉ n.Properties.map Prod.fst →
    o.lookup "wires" = some (.vWires n.Wires)) ∧
  ∀ kv ∈ n.Properties, o.lookup kv.1 = some kv.2

/-- A flow whose single node rebinds the reserved key `id` in its
property map: the emitted object then carries the property value, not
the node's identifier, refuting C1 as stated. -/
def c1CexFlow : FlowDefinition :=
  { zeroFlowDefinition with
      ID := "f1", Name := "Flow",
      Nodes := [{ ID := "n1", NodeType := "inject", Name := "start",
                  Position := { X := 0, Y := 0 },
                  Properties := [("id", .vStr "other")], Wires := [] }] }

/-- C1 as stated fails: on `c1CexFlow`, whose node has a property named
`id`, the node object's `id` key carries the property value `other`
rather than the node identifier `n1`, because the translator writes the
property map over the reserved keys. -/
theorem c1_counterexample : ¬ c1Claim c1CexFlow := by decide

/-- C1 amended: for every flow whose nodes have duplicate-free property
keys (every Go map does), the translation has exactly N+1 objects;
element 0 is the tab object with the flow's identifier, name and
non-empty description; element i+1 carries the i-th node's identifier,
type, name, X/Y position, z back-reference and wiring list under each
reserved key that its property map does not rebind, and carries every
property key with the property's value (properties take precedence over
the reserved keys). -/
theorem c1_amended (flow : FlowDefinition)
    (hnd : ∀ n ∈ flow.Nodes, (n.Properties.map Prod.fst).Nodup) :
    (NodeRedClient.convertFlowToNodeRedFormat flow).length =
        flow.Nodes.length + 1 ∧
    tabCarries flow ∧
    ∀ i : Fin flow.Nodes.length,
      nodeAmended flow.ID
        ((NodeRedClient.convertFlowToNodeRedFormat flow).getD (i.1 + 1) [])
        (flow.Nodes.get i) := by
  refine ⟨by simp [NodeRedClient.convertFlowToNodeRedFormat],
          tabCarries_holds flow, fun i => ?_⟩
  rw [convert_getD_succ]
  have hnd1 := hnd (flow.Nodes.get i) (flow.Nodes.get_mem i.1 i.2)
  refine ⟨fun h => ?_, fun h => ?_, fun h => ?_, fun h => ?_, fun h => ?_,
          fun h => ?_, fun h => ?_, fun kv hkv => ?_⟩ <;>
    rw [NodeRedClient.nodeToObj_lookup]
  · rw [propLookup_eq_none h]; rfl
  · rw [propLookup_eq_none h]; rfl
  · rw [propLookup_eq_none h]; rfl
  · rw [propLookup_eq_none h]; rfl
  · rw [propLookup_eq_none h]; rfl
  · rw [propLookup_eq_none h]; rfl
  · rw [propLookup_eq_none h]; rfl
  · obtain ⟨k, v⟩ := kv
    rw [propLookup_eq_some hnd1 hkv]

/-- A flow exercising the amended C1: two nodes with ordinary property
maps that avoid the reserved keys. -/
def c1WitFlow : FlowDefinition :=
  { zeroFlowDefinition with
      ID := "f1", Name := "Flow", Description := "demo",
      Nodes := [{ ID := "n1", NodeType := "inject", Name := "start",
                  Position := { X := 100, Y := 100 },
                  Properties := [("payload", .vStr "hi")],
                  Wires := [["n2"]] },
                { ID := "n2", NodeType := "debug", Name := "log",
                  Position := { X := 300, Y := 100 },
                  Properties := [("complete", .vStr "payload")],
                  Wires := [] }] }

theorem c1_amended_witness :
    (NodeRedClient.convertFlowToNodeRedFormat c1WitFlow).length =
      c1WitFlow.Nodes.length + 1 :=
  (c1_amended c1WitFlow (by decide)).1

/-- The reserved wire-format keys that the translator writes before
flattening a node's property map. -/
def reservedKeys : List String := ["id", "type", "name", "x", "y", "z", "wires"]

/-- C9: when a node's property map (duplicate-free keys, as in any Go
map) binds one of the reserved wire-format keys, the emitted node object
carries the property's value under that key: properties silently
overwrite the reserved fields, with no error or rejection. -/
theorem c9_properties_override (flowID : String) (n : Node) (k : String)
    (v : Value) (hnd : (n.Properties.map Prod.fst).Nodup)
    (_hres : k ∈ reservedKeys) (hmem : (k, v) ∈ n.Properties) :
    (NodeRedClient.nodeToObj flowID n).lookup k = some v := by
  rw [NodeRedClient.nodeToObj_lookup, propLookup_eq_some hnd hmem]

/-- The node of `c1CexFlow`: its property map rebinds `id`. -/
def c9Node : Node :=
  { ID := "n1", NodeType := "inject", Name := "start",
    Position := { X := 0, Y := 0 },
    Properties := [("id", .vStr "other")], Wires := [] }

theorem c9_witness :
    (NodeRedClient.nodeToObj "f1" c9Node).lookup "id" =
      some (.vStr "other") :=
  c9_properties_override "f1" c9Node "id" (.vStr "other")
    (by decide) (by decide) (by decide)

theorem createFlow_trace (c : NodeRedClient.Client)
    (net : NodeRedClient.Request → NodeRedClient.HttpResult)
    (body : NodeRedClient.Body) :
    (NodeRedClient.createFlow c net body).1 =
      [NodeRedClient.createRequest c body] := by
  simp only [NodeRedClient.createFlow]
  cases net (NodeRedClient.createRequest c body) with
  | netErr e => rfl
  | ok resp => by_cases hs : resp.status = 200 <;> simp [hs]

theorem DeployFlow_trace (c : NodeRedClient.Client)
    (net : NodeRedClient.Request → NodeRedClient.HttpResult)
    (flow : FlowDefinition) :
    (NodeRedClient.DeployFlow c net flow).1 =
        [NodeRedClient.deployPutRequest c flow] ∨
    (NodeRedClient.DeployFlow c net flow).1 =
        [NodeRedClient.deployPutRequest c flow,
         NodeRedClient.deployPostRequest c flow] := by
  simp only [NodeRedClient.DeployFlow]
  cases net (NodeRedClient.deployPutRequest c flow) with
  | netErr e => exact Or.inl rfl
  | ok resp =>
      by_cases h404 : resp.status = 404
      · refine Or.inr ?_
        simp only [h404, if_pos rfl]
        rw [createFlow_trace]
        rfl
      · by_cases hs : resp.status = 200 <;> simp [h404, hs]

theorem ExecuteFlow_trace (c : NodeRedClient.Client)
    (net : NodeRedClient.Request → NodeRedClient.HttpResult)
    (decodeExec : String → Option ExecutionResult) (flowID : String)
    (input : List (String × Value)) :
    (NodeRedClient.ExecuteFlow c net decodeExec flowID input).1 =
      [NodeRedClient.executeRequest c flowID input] := by
  simp only [NodeRedClient.ExecuteFlow]
  cases net (NodeRedClient.executeRequest c flowID input) with
  | netErr e => rfl
  | ok resp =>
      dsimp only
      cases decodeExec resp.body <;> rfl

theorem GetFlow_trace (c : NodeRedClient.Client)
    (net : NodeRedClient.Request → NodeRedClient.HttpResult)
    (decodeFlow : String → Option FlowDefinition) (flowID : String) :
    (NodeRedClient.GetFlow c net decodeFlow flowID).1 =
      [NodeRedClient.getRequest c flowID] := by
  simp only [NodeRedClient.GetFlow]
  cases net (NodeRedClient.getRequest c flowID) with
  | netErr e => rfl
  | ok resp =>
      by_cases h404 : resp.status = 404
      · simp [h404]
      · by_cases hs : resp.status = 200
        · simp [h404, hs]
          cases decodeFlow resp.body <;> rfl
        · simp [h404, hs]

theorem DeleteFlow_trace (c : NodeRedClient.Client)
    (net : NodeRedClient.Request → NodeRedClient.HttpResult)
    (flowID : String) :
    (NodeRedClient.DeleteFlow c net flowID).1 =
      [NodeRedClient.deleteRequest c flowID] := by
  simp only [NodeRedClient.DeleteFlow]
  cases net (NodeRedClient.deleteRequest c flowID) with
  | netErr e => rfl
  | ok resp =>
      by_cases h404 : resp.status = 404
      · simp [h404]
      · by_cases hs : resp.status = 200 <;> simp [h404, hs]

theorem HealthCheck_trace (c : NodeRedClient.Client)
    (net : NodeRedClient.Request → NodeRedClient.HttpResult) :
    (NodeRedClient.HealthCheck c net).1 = [NodeRedClient.healthRequest c] := by
  simp only [NodeRedClient.HealthCheck]
  cases net (NodeRedClient.healthRequest c) with
  | netErr e => rfl
  | ok resp => by_cases hs : resp.status = 200 <;> simp [hs]

theorem auth_mem_authHeaders {apiKey : String} (h : apiKey ≠ "") :
    ("Authorization", "Bearer " ++ apiKey) ∈
      NodeRedClient.authHeaders apiKey := by
  simp [NodeRedClient.authHeaders, h]

theorem auth_mem_jsonHeaders {apiKey : String} (h : apiKey ≠ "") :
    ("Authorization", "Bearer " ++ apiKey) ∈
      NodeRedClient.jsonHeaders apiKey := by
  simp only [NodeRedClient.jsonHeaders]
  exact List.mem_cons_of_mem _ (auth_mem_authHeaders h)

theorem no_auth_authHeaders_empty (v : String) :
    ("Authorization", v) ∉ NodeRedClient.authHeaders "" := by
  simp [NodeRedClient.authHeaders]

theorem no_auth_jsonHeaders_empty (v : String) :
    ("Authorization", v) ∉ NodeRedClient.jsonHeaders "" := by
  intro hmem
  simp [NodeRedClient.jsonHeaders, NodeRedClient.authHeaders] at hmem

/-- Claim C2 as stated: every request issued by Deploy, Execute, Get,
Delete or HealthCheck carries the bearer header exactly when the API key
is non-empty. -/
abbrev c2Claim : Prop :=
  ∀ (c : NodeRedClient.Client)
    (net : NodeRedClient.Request → NodeRedClient.HttpResult)
    (flow : FlowDefinition) (decE : String → Option ExecutionResult)
    (decF : String → Option FlowDefinition) (flowID : String)
    (input : List (String × Value)) (req : NodeRedClient.Request),
    (req ∈ (NodeRedClient.DeployFlow c net flow).1 ∨
     req ∈ (NodeRedClient.ExecuteFlow c net decE flowID input).1 ∨
     req ∈ (NodeRedClient.GetFlow c net decF flowID).1 ∨
     req ∈ (NodeRedClient.DeleteFlow c net flowID).1 ∨
     req ∈ (NodeRedClient.HealthCheck c net).1) →
    (c.apiKey ≠ "" →
      ("Authorization", "Bearer " ++ c.apiKey) ∈ req.headers) ∧
    (c.apiKey = "" → ∀ v, ("Authorization", v) ∉ req.headers)

/-- A client configured with a non-empty bearer token. -/
def c2Client : NodeRedClient.Client :=
  { baseURL := "http://localhost:1880", apiKey := "secret", debug := false }

/-- A transport oracle that fails every request. -/
def c2Net : NodeRedClient.Request → NodeRedClient.HttpResult :=
  fun _ => .netErr "connection refused"

/-- C2 as stated is false: with the non-empty token `secret`, the
request issued by `HealthCheck` carries no Authorization header at all,
because the Go `HealthCheck` never sets one. -/
theorem c2_counterexample : ¬ c2Claim := by
  intro h
  have hmem : NodeRedClient.healthRequest c2Client ∈
      (NodeRedClient.HealthCheck c2Client c2Net).1 := by
    rw [HealthCheck_trace]
    exact List.mem_singleton.mpr rfl
  have hc := (h c2Client c2Net zeroFlowDefinition (fun _ => none)
    (fun _ => none) "" [] (NodeRedClient.healthRequest c2Client)
    (Or.inr (Or.inr (Or.inr (Or.inr hmem))))).1 (by decide)
  simp [NodeRedClient.healthRequest] at hc

/-- C2 amended: every request issued by Deploy, Execute, Get and Delete
carries `Authorization: Bearer <token>` when the client's token is
non-empty and no Authorization header when it is empty; the HealthCheck
request never carries an Authorization header, token or not. -/
theorem c2_amended (c : NodeRedClient.Client)
    (net : NodeRedClient.Request → NodeRedClient.HttpResult)
    (flow : FlowDefinition) (decE : String → Option ExecutionResult)
    (decF : String → Option FlowDefinition) (flowID : String)
    (input : List (String × Value)) (req : NodeRedClient.Request)
    (hmem : req ∈ (NodeRedClient.DeployFlow c net flow).1 ∨
            req ∈ (NodeRedClient.ExecuteFlow c net decE flowID input).1 ∨
            req ∈ (NodeRedClient.GetFlow c net decF flowID).1 ∨
            req ∈ (NodeRedClient.DeleteFlow c net flowID).1) :
    ((c.apiKey ≠ "" →
       ("Authorization", "Bearer " ++ c.apiKey) ∈ req.headers) ∧
     (c.apiKey = "" → ∀ v, ("Authorization", v) ∉ req.headers)) ∧
    ∀ hreq ∈ (NodeRedClient.HealthCheck c net).1,
      ∀ v, ("Authorization", v) ∉ hreq.headers := by
  have hhd : req.headers = NodeRedClient.jsonHeaders c.apiKey ∨
      req.headers = NodeRedClient.authHeaders c.apiKey := by
    rcases hmem with h | h | h | h
    · rcases DeployFlow_trace c net flow with ht | ht <;> rw [ht] at h
      · rw [List.mem_singleton] at h
        subst h; exact Or.inl rfl
      · rcases List.mem_pair.mp h with h2 | h2 <;> subst h2
        · exact Or.inl rfl
        · exact Or.inl rfl
    · rw [ExecuteFlow_trace, List.mem_singleton] at h
      subst h; exact Or.inl rfl
    · rw [GetFlow_trace, List.mem_singleton] at h
      subst h; exact Or.inr rfl
    · rw [DeleteFlow_trace, List.mem_singleton] at h
      subst h; exact Or.inr rfl
  refine ⟨⟨fun hk => ?_, fun hk v => ?_⟩, fun hreq hh v => ?_⟩
  · rcases hhd with h | h <;> rw [h]
    · exact auth_mem_jsonHeaders hk
    · exact auth_mem_authHeaders hk
  · rw [hk] at hhd
    rcases hhd with h | h <;> rw [h]
    · exact no_auth_jsonHeaders_empty v
    · exact no_auth_authHeaders_empty v
  · rw [HealthCheck_trace, List.mem_singleton] at hh
    subst hh
    simp [NodeRedClient.healthRequest]

theorem c2_amended_witness :
    ("Authorization", "Bearer " ++ c2Client.apiKey) ∈
      (NodeRedClient.getRequest c2Client "flow-1").headers :=
  ((c2_amended c2Client c2Net zeroFlowDefinition (fun _ => none)
      (fun _ => none) "flow-1" [] (NodeRedClient.getRequest c2Client "flow-1")
      (Or.inr (Or.inr (Or.inl (by
        rw [GetFlow_trace]; exact List.mem_singleton.mpr rfl))))).1).1
    (by decide)

/-- C3: when the deploy PUT comes back 404, `DeployFlow` issues exactly
one subsequent POST to the create endpoint, its body is the very same
marshalled payload as the PUT's, and the deployment succeeds exactly
when that POST returns status 200. -/
theorem c3_deploy_put404_fallback (c : NodeRedClient.Client)
    (net : NodeRedClient.Request → NodeRedClient.HttpResult)
    (flow : FlowDefinition) (resp : NodeRedClient.HttpResponse)
    (hput : net (NodeRedClient.deployPutRequest c flow) = .ok resp)
    (h404 : resp.status = 404) :
    (NodeRedClient.DeployFlow c net flow).1 =
      [NodeRedClient.deployPutRequest c flow,
       NodeRedClient.deployPostRequest c flow] ∧
    (NodeRedClient.deployPutRequest c flow).method = "PUT" ∧
    (NodeRedClient.deployPostRequest c flow).method = "POST" ∧
    (NodeRedClient.deployPostRequest c flow).url = c.baseURL ++ "/flow" ∧
    (NodeRedClient.deployPostRequest c flow).body =
      (NodeRedClient.deployPutRequest c flow).body ∧
    ((NodeRedClient.DeployFlow c net flow).2 = .ok () ↔
      ∃ r2, net (NodeRedClient.deployPostRequest c flow) = .ok r2 ∧
        r2.status = 200) := by
  have hdep : NodeRedClient.DeployFlow c net flow =
      (NodeRedClient.deployPutRequest c flow ::
         (NodeRedClient.createFlow c net
           (.flowPayload (NodeRedClient.mkDeployPayload flow))).1,
       (NodeRedClient.createFlow c net
         (.flowPayload (NodeRedClient.mkDeployPayload flow))).2) := by
    simp only [NodeRedClient.DeployFlow]
    rw [hput]
    dsimp only
    rw [if_pos h404]
  refine ⟨?_, rfl, rfl, rfl, rfl, ?_⟩
  · rw [hdep]
    dsimp only
    rw [createFlow_trace]
    rfl
  · rw [hdep]
    dsimp only
    simp only [NodeRedClient.deployPostRequest, NodeRedClient.createFlow]
    cases hpost : net (NodeRedClient.createRequest c
        (.flowPayload (NodeRedClient.mkDeployPayload flow))) with
    | netErr e => simp
    | ok r2 =>
        by_cases hs : r2.status = 200
        · simp [hs]
        · simp [hs]

/-- A transport oracle answering 404 to the PUT and 200 to the POST. -/
def c3Net : NodeRedClient.Request → NodeRedClient.HttpResult :=
  fun req => if req.method = "PUT" then .ok { status := 404, body := "" }
             else .ok { status := 200, body := "" }

theorem c3_witness :
    (NodeRedClient.DeployFlow c2Client c3Net c1WitFlow).1 =
      [NodeRedClient.deployPutRequest c2Client c1WitFlow,
       NodeRedClient.deployPostRequest c2Client c1WitFlow] :=
  (c3_deploy_put404_fallback c2Client c3Net c1WitFlow
    { status := 404, body := "" } (by decide) rfl).1

theorem string_append_ne (a b : String) (c : Char) (c2 d2 : Char)
    (as bs : List Char) (ha : a.data = c :: c2 :: as)
    (hb : b.data = c :: d2 :: bs) (hne : c2 ≠ d2) (x y : String) :
    a ++ x ≠ b ++ y := by
  intro h
  have hd := congrArg String.data h
  rw [String.data_append, String.data_append, ha, hb] at hd
  simp only [List.cons_append, List.cons.injEq] at hd
  exact hne hd.2.1

/-- C7: a 404 on Get or Delete yields the dedicated not-found error
naming the flow id, while every other non-200 status yields the generic
status error carrying the numeric code, and the two error strings can
never coincide. -/
theorem c7_not_found_distinguishable (c : NodeRedClient.Client)
    (net : NodeRedClient.Request → NodeRedClient.HttpResult)
    (decF : String → Option FlowDefinition) (flowID : String)
    (resp respD : NodeRedClient.HttpResponse)
    (hget : net (NodeRedClient.getRequest c flowID) = .ok resp)
    (hdel : net (NodeRedClient.deleteRequest c flowID) = .ok respD) :
    (resp.status = 404 →
      (NodeRedClient.GetFlow c net decF flowID).2 =
        .error ("flow not found: " ++ flowID)) ∧
    (resp.status ≠ 404 → resp.status ≠ 200 →
      (NodeRedClient.GetFlow c net decF flowID).2 =
        .error ("failed to get flow: status " ++ toString resp.status)) ∧
    (respD.status = 404 →
      (NodeRedClient.DeleteFlow c net flowID).2 =
        .error ("flow not found: " ++ flowID)) ∧
    (respD.status ≠ 404 → respD.status ≠ 200 →
      (NodeRedClient.DeleteFlow c net flowID).2 =
        .error ("failed to delete flow: status " ++ toString respD.status)) ∧
    (∀ (anyID : String) (st : Nat),
      "flow not found: " ++ anyID ≠
        "failed to get flow: status " ++ toString st) ∧
    (∀ (anyID : String) (st : Nat),
      "flow not found: " ++ anyID ≠
        "failed to delete flow: status " ++ toString st) := by
  refine ⟨fun h404 => ?_, fun h404 h200 => ?_, fun h404 => ?_,
          fun h404 h200 => ?_, fun anyID st => ?_, fun anyID st => ?_⟩
  · simp only [NodeRedClient.GetFlow]
    rw [hget]
    dsimp only
    rw [if_pos h404]
  · simp only [NodeRedClient.GetFlow]
    rw [hget]
    dsimp only
    rw [if_neg h404, if_pos h200]
  · simp only [NodeRedClient.DeleteFlow]
    rw [hdel]
    dsimp only
    rw [if_pos h404]
  · simp only [NodeRedClient.DeleteFlow]
    rw [hdel]
    dsimp only
    rw [if_neg h404, if_pos h200]
  · exact string_append_ne "flow not found: " "failed to get flow: status "
      'f' 'l' 'a' ("ow not found: ").data ("iled to get flow: status ").data
      (by decide) (by decide) (by decide) anyID (toString st)
  · exact string_append_ne "flow not found: "
      "failed to delete flow: status " 'f' 'l' 'a'
      ("ow not found: ").data ("iled to delete flow: status ").data
      (by decide) (by decide) (by decide) anyID (toString st)

/-- A transport oracle answering 404 to everything. -/
def c7Net : NodeRedClient.Request → NodeRedClient.HttpResult :=
  fun _ => .ok { status := 404, body := "" }

theorem c7_witness :
    (NodeRedClient.GetFlow c2Client c7Net (fun _ => none) "missing").2 =
      .error ("flow not found: " ++ "missing") :=
  (c7_not_found_distinguishable c2Client c7Net (fun _ => none) "missing"
    { status := 404, body := "" } { status := 404, body := "" }
    rfl rfl).1 rfl

/-- C10: the client's `ExecuteFlow` never reads the response status: its
outcome is fully determined by the transport result and whether the
response body decodes into an `ExecutionResult`, so a 404 or 500
response with a decodable body still succeeds, and an error arises only
from a transport failure or a decode failure. -/
theorem c10_execute_ignores_status (c : NodeRedClient.Client)
    (net : NodeRedClient.Request → NodeRedClient.HttpResult)
    (decodeExec : String → Option ExecutionResult) (flowID : String)
    (input : List (String × Value)) :
    (NodeRedClient.ExecuteFlow c net decodeExec flowID input).2 =
      match net (NodeRedClient.executeRequest c flowID input) with
      | .netErr e => .error ("failed to execute flow: " ++ e)
      | .ok resp =>
          match decodeExec resp.body with
          | none => .error "failed to decode response"
          | some r => .ok r := by
  simp only [NodeRedClient.ExecuteFlow]
  cases net (NodeRedClient.executeRequest c flowID input) with
  | netErr e => rfl
  | ok resp =>
      dsimp only
      cases decodeExec resp.body <;> rfl

/-- C4: a missing flow or an empty flow identifier makes the facade's
DeployFlow return its validation error with zero transport-client
invocations, and an empty flowId makes ExecuteFlow, GetFlow and
DeleteFlow return theirs with zero transport-client invocations and,
for ExecuteFlow, an empty event trace (no executor hook runs either). -/
theorem c4_facade_validation
    (clientDeploy : FlowDefinition → Except String Unit)
    (clientGet : String → Except String FlowDefinition)
    (clientDelete : String → Except String Unit)
    (executor : NodeRedWrapper.ExecutionHandler)
    (clientExecute : String → List (String × Value) →
      Except String ExecutionResult)
    (elapsed : Int) (input : List (String × Value)) (flow : FlowDefinition)
    (hid : flow.ID = "") :
    NodeRedWrapper.DeployFlow clientDeploy none =
      (0, .error "flow is required") ∧
    NodeRedWrapper.DeployFlow clientDeploy (some flow) =
      (0, .error "flow ID is required") ∧
    NodeRedWrapper.ExecuteFlow executor clientExecute elapsed "" input =
      ([], .error "flow ID is required") ∧
    NodeRedWrapper.GetFlow clientGet "" = (0, .error "flow ID is required") ∧
    NodeRedWrapper.DeleteFlow clientDelete "" =
      (0, .error "flow ID is required") := by
  refine ⟨rfl, ?_, rfl, rfl, rfl⟩
  simp [NodeRedWrapper.DeployFlow, hid]

theorem c4_witness :
    NodeRedWrapper.GetFlow (fun _ => Except.error "unreachable") "" =
      (0, .error "flow ID is required") :=
  (c4_facade_validation (fun _ => .ok ()) (fun _ => Except.error "unreachable")
    (fun _ => .ok ()) NodeRedWrapper.DefaultExecutor
    (fun _ _ => Except.error "unreachable") 0 [] zeroFlowDefinition
    rfl).2.2.2.1

/-- C5: with a non-empty flowId, a failing PreExecute hook aborts the
facade's ExecuteFlow with the wrapped pre-execution error, and the
recorded trace holds the pre-hook event alone: the transport client,
OnError and PostExecute are never invoked. -/
theorem c5_preexecute_blocks (executor : NodeRedWrapper.ExecutionHandler)
    (clientExecute : String → List (String × Value) →
      Except String ExecutionResult)
    (elapsed : Int) (flowID : String) (input : List (String × Value))
    (e : String) (hID : flowID ≠ "")
    (hpre : executor.PreExecute input = some e) :
    NodeRedWrapper.ExecuteFlow executor clientExecute elapsed flowID input =
      ([.preExec input], .error ("pre-execution failed: " ++ e)) := by
  simp only [NodeRedWrapper.ExecuteFlow]
  rw [if_neg hID, hpre]

/-- An executor whose pre-hook always rejects. -/
def c5Executor : NodeRedWrapper.ExecutionHandler :=
  { PreExecute := fun _ => some "bad input",
    PostExecute := fun _ => none, OnError := fun _ => none }

theorem c5_witness :
    NodeRedWrapper.ExecuteFlow c5Executor
        (fun _ _ => Except.error "client must not run") 0 "flow-1" [] =
      ([.preExec []], .error ("pre-execution failed: " ++ "bad input")) :=
  c5_preexecute_blocks c5Executor (fun _ _ => Except.error "client must not run")
    0 "flow-1" [] "bad input" (by decide) rfl

/-- C6: with a non-empty flowId and a passing pre-hook, a transport
failure makes the facade's ExecuteFlow invoke OnError with the transport
error; a failing OnError yields the combined error naming the hook
failure and the original transport error, a passing OnError yields
exactly the original transport error. -/
theorem c6_onerror_handling (executor : NodeRedWrapper.ExecutionHandler)
    (clientExecute : String → List (String × Value) →
      Except String ExecutionResult)
    (elapsed : Int) (flowID : String) (input : List (String × Value))
    (terr : String) (hID : flowID ≠ "")
    (hpre : executor.PreExecute input = none)
    (hclient : clientExecute flowID input = .error terr) :
    NodeRedWrapper.ExecuteFlow executor clientExecute elapsed flowID input =
      ([.preExec input, .clientExec flowID input, .onError terr],
       match executor.OnError terr with
       | some execErr =>
           .error ("execution failed and error handler failed: " ++ execErr ++
             " (original error: " ++ terr ++ ")")
       | none => .error terr) := by
  simp only [NodeRedWrapper.ExecuteFlow]
  rw [if_neg hID, hpre, hclient]
  dsimp only
  cases executor.OnError terr <;> rfl

/-- An executor whose error hook itself fails. -/
def c6Executor : NodeRedWrapper.ExecutionHandler :=
  { PreExecute := fun _ => none, PostExecute := fun _ => none,
    OnError := fun _ => some "hook down" }

theorem c6_witness :
    NodeRedWrapper.ExecuteFlow c6Executor (fun _ _ => Except.error "boom")
        0 "flow-1" [] =
      ([.preExec [], .clientExec "flow-1" [], .onError "boom"],
       .error ("execution failed and error handler failed: " ++ "hook down" ++
         " (original error: " ++ "boom" ++ ")")) :=
  c6_onerror_handling c6Executor (fun _ _ => Except.error "boom") 0 "flow-1"
    [] "boom" (by decide) rfl rfl

/-- C8: the default converter passes a FlowDefinition through unchanged;
turns a string-keyed map into a FlowDefinition taking its ID, Name,
Description and Version from the map's string values under the keys id,
name, description and version with every other field zero-valued; and
rejects any other input type with an error naming the received type. -/
theorem c8_default_converter (f : FlowDefinition)
    (m : List (String × Value)) (typeName : String) :
    NodeRedWrapper.ConvertToNodeRedFlow (.flowDef f) = .ok f ∧
    NodeRedWrapper.ConvertToNodeRedFlow (.strMap m) =
      .ok { ID := NodeRedWrapper.getStrField m "id",
            Name := NodeRedWrapper.getStrField m "name",
            Label := "", Version := NodeRedWrapper.getStrField m "version",
            Description := NodeRedWrapper.getStrField m "description",
            Info := "", Disabled := false, Nodes := [], Connections := [],
            Metadata := [], CreatedAt := 0, UpdatedAt := 0 } ∧
    (∀ s, Obj.lookup m "id" = some (.vStr s) →
      NodeRedWrapper.getStrField m "id" = s) ∧
    (∀ s, Obj.lookup m "name" = some (.vStr s) →
      NodeRedWrapper.getStrField m "name" = s) ∧
    (∀ s, Obj.lookup m "description" = some (.vStr s) →
      NodeRedWrapper.getStrField m "description" = s) ∧
    (∀ s, Obj.lookup m "version" = some (.vStr s) →
      NodeRedWrapper.getStrField m "version" = s) ∧
    NodeRedWrapper.ConvertToNodeRedFlow (.other typeName) =
      .error ("unsupported workflow type: " ++ typeName) := by
  refine ⟨rfl, rfl, ?_, ?_, ?_, ?_, rfl⟩ <;>
    · intro s hs
      simp [NodeRedWrapper.getStrField, hs]

/-- The string map exercised by the repository's own converter test. -/
def c8Map : List (String × Value) :=
  [("id", .vStr "test-flow"), ("name", .vStr "Test Flow"),
   ("description", .vStr "Test Description"), ("version", .vStr "1.0.0")]

theorem c8_witness : NodeRedWrapper.getStrField c8Map "id" = "test-flow" :=
  (c8_default_converter zeroFlowDefinition c8Map "string").2.2.1
    "test-flow" rfl
